import Mathlib

/-!
Verification of the WeFlow export pipeline (src/electron/services/exportService.ts)
against its natural-language specification.

The TypeScript source is shallowly embedded:

* JavaScript strings handled by the content decoder are modelled as lists of
  Unicode code points (`List Nat`), so that byte-level decoding (hex, base64,
  UTF-8 with replacement, latin1) is explicit.
* JavaScript strings handled by the message-content parser are modelled as
  `String` / `List Char`.
* Exceptions are modelled with `Except Unit`: every construct of the source that
  can throw returns `.error ()`, and a `try { .. } catch { .. }` of the source
  becomes a `match` on that `Except` value.
* External collaborators (the fzstd decompressor, the network, the filesystem,
  the WCDB lookup maps) are oracle parameters of the embedded functions.
-/

/-! ## Content decoder (exportService.ts lines 169-228)

JS strings are lists of UTF-16 code points; byte buffers are lists of byte
values (each < 256). -/

/-- A JavaScript value as it reaches decodeMaybeCompressed: `null`, `undefined`,
a string, or any non-string value (number, object, ...). -/
inductive JsVal where
  | nullv : JsVal
  | undef : JsVal
  | str : List Nat → JsVal
  | other : JsVal

/-- Code point of an ASCII hex digit, as accepted by /^[0-9a-fA-F]+$/. -/
def isHexDigitCp (c : Nat) : Bool :=
  (48 ≤ c && c ≤ 57) || (97 ≤ c && c ≤ 102) || (65 ≤ c && c ≤ 70)

/-- looksLikeHex (line 220): even length and entirely hex digits; the
regex /^[0-9a-fA-F]+$/ additionally requires a non-empty string. -/
def looksLikeHex (s : List Nat) : Bool :=
  !s.isEmpty && s.length % 2 == 0 && s.all isHexDigitCp

/-- Code point of the base64 alphabet [A-Za-z0-9+/=]. -/
def isB64Cp (c : Nat) : Bool :=
  (65 ≤ c && c ≤ 90) || (97 ≤ c && c ≤ 122) || (48 ≤ c && c ≤ 57) ||
  c == 43 || c == 47 || c == 61

/-- looksLikeBase64 (line 225): length a multiple of 4 and entirely base64
alphabet; the regex /^[A-Za-z0-9+\/=]+$/ requires a non-empty string. -/
def looksLikeBase64 (s : List Nat) : Bool :=
  !s.isEmpty && s.length % 4 == 0 && s.all isB64Cp

/-- Value of one hex digit code point. -/
def hexVal (c : Nat) : Nat :=
  if 48 ≤ c && c ≤ 57 then c - 48
  else if 97 ≤ c && c ≤ 102 then c - 87
  else if 65 ≤ c && c ≤ 70 then c - 55
  else 0

/-- Buffer.from(s, 'hex'): consecutive pairs of hex digits become bytes.
Under the looksLikeHex guard every pair is valid. -/
def hexDecode : List Nat → List Nat
  | c1 :: c2 :: rest => (hexVal c1 * 16 + hexVal c2) :: hexDecode rest
  | _ => []

/-- Value of one base64 alphabet code point. -/
def b64Val (c : Nat) : Nat :=
  if 65 ≤ c && c ≤ 90 then c - 65
  else if 97 ≤ c && c ≤ 122 then c - 97 + 26
  else if 48 ≤ c && c ≤ 57 then c - 48 + 52
  else if c == 43 then 62
  else if c == 47 then 63
  else 0

/-- Groups of four 6-bit values become three bytes; a trailing group of three
values yields two bytes and a trailing group of two yields one, as in Node. -/
def b64Core : List Nat → List Nat
  | a :: b :: c :: d :: rest =>
      (b64Val a * 4 + b64Val b / 16) ::
      (b64Val b % 16 * 16 + b64Val c / 4) ::
      (b64Val c % 4 * 64 + b64Val d) :: b64Core rest
  | [a, b, c] =>
      [b64Val a * 4 + b64Val b / 16, b64Val b % 16 * 16 + b64Val c / 4]
  | [a, b] => [b64Val a * 4 + b64Val b / 16]
  | _ => []

/-- Buffer.from(s, 'base64'): Node ignores padding characters and decodes the
remaining 6-bit groups. This decoder is total: Buffer.from never throws on a
string of base64-alphabet characters, so the catch on line 189 is unreachable
under the looksLikeBase64 guard. -/
def b64Decode (s : List Nat) : List Nat :=
  b64Core (s.filter (fun c => c != 61))

/-- Is a continuation byte 0x80-0xBF. -/
def isContByte (c : Nat) : Bool := 128 ≤ c && c ≤ 191

/-- Allowed range of the first continuation byte of a three-byte sequence,
per the WHATWG UTF-8 decoder (E0 requires A0-BF, ED requires 80-9F). -/
def cont1Ok3 (b c : Nat) : Bool :=
  if b == 224 then 160 ≤ c && c ≤ 191
  else if b == 237 then 128 ≤ c && c ≤ 159
  else isContByte c

/-- Allowed range of the first continuation byte of a four-byte sequence,
per the WHATWG UTF-8 decoder (F0 requires 90-BF, F4 requires 80-8F). -/
def cont1Ok4 (b c : Nat) : Bool :=
  if b == 240 then 144 ≤ c && c ≤ 191
  else if b == 244 then 128 ≤ c && c ≤ 143
  else isContByte c

/-- Worker of the UTF-8 decoder. The second argument counts continuation
bytes that were already folded into an emitted code point and must be
skipped, which keeps every recursive call on the direct tail of the list. -/
def utf8Go : List Nat → Nat → List Nat
  | [], _ => []
  | _ :: rest, skip + 1 => utf8Go rest skip
  | b :: rest, 0 =>
    if b < 128 then b :: utf8Go rest 0
    else if 194 ≤ b && b ≤ 223 then
      match rest with
      | [] => [65533]
      | c1 :: _ =>
        if isContByte c1 then ((b - 192) * 64 + (c1 - 128)) :: utf8Go rest 1
        else 65533 :: utf8Go rest 0
    else if 224 ≤ b && b ≤ 239 then
      match rest with
      | [] => [65533]
      | c1 :: r1 =>
        if cont1Ok3 b c1 then
          match r1 with
          | [] => [65533]
          | c2 :: _ =>
            if isContByte c2 then
              ((b - 224) * 4096 + (c1 - 128) * 64 + (c2 - 128)) :: utf8Go rest 2
            else 65533 :: utf8Go rest 1
        else 65533 :: utf8Go rest 0
    else if 240 ≤ b && b ≤ 244 then
      match rest with
      | [] => [65533]
      | c1 :: r1 =>
        if cont1Ok4 b c1 then
          match r1 with
          | [] => [65533]
          | c2 :: r2 =>
            if isContByte c2 then
              match r2 with
              | [] => [65533]
              | c3 :: _ =>
                if isContByte c3 then
                  ((b - 240) * 262144 + (c1 - 128) * 4096 + (c2 - 128) * 64 + (c3 - 128)) ::
                    utf8Go rest 3
                else 65533 :: utf8Go rest 2
            else 65533 :: utf8Go rest 1
        else 65533 :: utf8Go rest 0
    else 65533 :: utf8Go rest 0

/-- Buffer.toString('utf-8'): WHATWG UTF-8 decoding with U+FFFD replacement
of each maximal invalid subpart (an invalid or truncated sequence emits one
replacement character and decoding resumes at the offending byte). -/
def utf8DecodeReplace (data : List Nat) : List Nat :=
  utf8Go data 0

/-- JavaScript string length: the number of UTF-16 code units (code points
beyond the basic plane count twice). -/
def jsLength (s : List Nat) : Nat :=
  (s.map (fun c => if 65536 ≤ c then 2 else 1)).sum

/-- decoded.replace(/�/g, ""): remove every replacement character. -/
def stripFFFD (s : List Nat) : List Nat :=
  s.filter (fun c => c != 65533)

/-- Buffer.toString('latin1'): each byte becomes the code point of the same
value. -/
def latin1Decode (data : List Nat) : List Nat := data

/-- data.readUInt32LE(0): little-endian 32-bit read, defined when the buffer
has at least four bytes. -/
def readUInt32LE (data : List Nat) : Option Nat :=
  match data with
  | b0 :: b1 :: b2 :: b3 :: _ =>
      some (b0 + b1 * 256 + b2 * 65536 + b3 * 16777216)
  | _ => none

/-- The guard of line 201-203: at least four bytes and the little-endian magic
0xFD2FB528 of a zstd frame. -/
def hasZstdMagic (data : List Nat) : Bool :=
  match readUInt32LE data with
  | some m => m == 0xFD2FB528
  | none => false

/-- Body of the try block of decodeBinaryContent (lines 200-214). The fzstd
decompressor is an oracle `zstd`; its `none` outcome models the exception
fzstd throws on a malformed or truncated frame, which is the only throwing
construct in the block. The threshold `replacementCount < decoded.length * 0.2`
is `5 * count < length` in exact arithmetic, and the double rounding of
`length * 0.2` never changes the comparison against an integer count. -/
def decodeBinaryContentBody (zstd : List Nat → Option (List Nat))
    (data : List Nat) : Except Unit (List Nat) :=
  if hasZstdMagic data then
    match zstd data with
    | none => Except.error ()
    | some out => Except.ok (utf8DecodeReplace out)
  else
    let decoded := utf8DecodeReplace data
    if 5 * decoded.count 65533 < jsLength decoded then Except.ok (stripFFFD decoded)
    else Except.ok (latin1Decode data)

/-- decodeBinaryContent (lines 198-218): empty buffer gives the empty string,
and the catch of line 215 turns any exception of the body into the empty
string. -/
def decodeBinaryContent (zstd : List Nat → Option (List Nat))
    (data : List Nat) : List Nat :=
  if data.isEmpty then []
  else
    match decodeBinaryContentBody zstd data with
    | Except.ok s => s
    | Except.error _ => []

/-- decodeMaybeCompressed (lines 177-196): null, undefined, and non-string
values give the empty string; a string is classified as hex, then base64,
then plain text. -/
def decodeMaybeCompressed (zstd : List Nat → Option (List Nat)) : JsVal → List Nat
  | JsVal.nullv => []
  | JsVal.undef => []
  | JsVal.other => []
  | JsVal.str s =>
    if s.isEmpty then []
    else if looksLikeHex s && !(hexDecode s).isEmpty then
      decodeBinaryContent zstd (hexDecode s)
    else if looksLikeBase64 s then decodeBinaryContent zstd (b64Decode s)
    else s

/-- decodeMessageContent (lines 169-175): try the compressed field first and
fall back to the primary field when it decodes to the empty string. -/
def decodeMessageContent (zstd : List Nat → Option (List Nat))
    (messageContent compressContent : JsVal) : List Nat :=
  let content := decodeMaybeCompressed zstd compressContent
  if content.isEmpty then decodeMaybeCompressed zstd messageContent else content

/-- The behaviour claim C7 ascribes to decodeBinaryContent on a non-zstd
buffer, written from the spec sentence: more than 20 percent replacement
characters selects latin1, otherwise the UTF-8 decoding is returned. -/
def decodeBinaryContentSpecC7 (data : List Nat) : List Nat :=
  let decoded := utf8DecodeReplace data
  if jsLength decoded < 5 * decoded.count 65533 then latin1Decode data
  else decoded

/-- A decompression oracle that fails on every input, as fzstd does on a
truncated frame that begins with the magic. -/
def zstdNone : List Nat → Option (List Nat) := fun _ => none

/-- C1: for every input value given to the content decoder (null, undefined,
non-string, empty string, strings that match neither the hex nor the base64
pattern, and arbitrary binary including truncated zstd frames after the
0xFD2FB528 magic), decodeMaybeCompressed and decodeBinaryContent return a
string: every throwing construct of the chain is modelled in `Except` and the
exported functions are total, and a failure anywhere in the chain (the fzstd
decompressor raising inside the try block) yields the empty string. -/
theorem C1_decoder_total_and_empty_on_failure
    (zstd : List Nat → Option (List Nat)) (s data : List Nat)
    (hhex : looksLikeHex s = false) (hb64 : looksLikeBase64 s = false)
    (hmagic : hasZstdMagic data = true) (hfail : zstd data = none) :
    decodeMaybeCompressed zstd JsVal.nullv = [] ∧
    decodeMaybeCompressed zstd JsVal.undef = [] ∧
    decodeMaybeCompressed zstd JsVal.other = [] ∧
    decodeMaybeCompressed zstd (JsVal.str []) = [] ∧
    decodeMaybeCompressed zstd (JsVal.str s) = s ∧
    decodeBinaryContent zstd data = [] ∧
    (∀ d : List Nat,
      decodeBinaryContentBody zstd d = Except.error () → decodeBinaryContent zstd d = []) := by
  refine ⟨rfl, rfl, rfl, rfl, ?_, ?_, ?_⟩
  · by_cases hs : s = []
    · subst hs; rfl
    · simp [decodeMaybeCompressed, hs, hhex, hb64]
  · have hne : data ≠ [] := by
      intro h
      subst h
      simp [hasZstdMagic, readUInt32LE] at hmagic
    simp [decodeBinaryContent, decodeBinaryContentBody, hmagic, hfail, hne]
  · intro d hd
    by_cases hde : d = []
    · subst hde; rfl
    · simp [decodeBinaryContent, hde, hd]

/-- Witness for C1 at concrete inputs: the string "zz!" matches neither
pattern and is returned unchanged, and a four-byte truncated frame that
carries the zstd magic decodes to the empty string when fzstd fails. -/
theorem C1_witness :
    looksLikeHex [122, 122, 33] = false ∧
    looksLikeBase64 [122, 122, 33] = false ∧
    hasZstdMagic [40, 181, 47, 253] = true ∧
    zstdNone [40, 181, 47, 253] = none ∧
    decodeMaybeCompressed zstdNone (JsVal.str [122, 122, 33]) = [122, 122, 33] ∧
    decodeBinaryContent zstdNone [40, 181, 47, 253] = [] := by
  have h := C1_decoder_total_and_empty_on_failure zstdNone [122, 122, 33] [40, 181, 47, 253]
    (by decide) (by decide) (by decide) rfl
  exact ⟨by decide, by decide, by decide, rfl, h.2.2.2.2.1, h.2.2.2.2.2.1⟩

/-- C7 counterexample: the claim predicts the UTF-8 decoding whenever no more
than 20 percent of its characters are U+FFFD. On the five-byte buffer
61 62 63 64 FF exactly 20 percent are U+FFFD and the code returns the latin1
decoding, and on the ten-byte buffer 61..69 FF the code strips the U+FFFD
marker out of the UTF-8 decoding instead of returning the decoding itself. -/
theorem C7_counterexample :
    decodeBinaryContent zstdNone [97, 98, 99, 100, 255] ≠
      decodeBinaryContentSpecC7 [97, 98, 99, 100, 255] ∧
    decodeBinaryContent zstdNone [97, 98, 99, 100, 101, 102, 103, 104, 105, 255] ≠
      decodeBinaryContentSpecC7 [97, 98, 99, 100, 101, 102, 103, 104, 105, 255] := by
  constructor <;> decide

/-- C7 amended: for every byte buffer that does not begin with the zstd magic,
if at least 20 percent of the UTF-16 code units of the UTF-8 replacement
decoding are U+FFFD then decodeBinaryContent returns the latin1 decoding, and
otherwise it returns the UTF-8 decoding with every U+FFFD marker removed. -/
theorem C7_amended_decode_heuristic
    (zstd : List Nat → Option (List Nat)) (data : List Nat)
    (hmagic : hasZstdMagic data = false) (hne : data ≠ []) :
    (jsLength (utf8DecodeReplace data) ≤ 5 * (utf8DecodeReplace data).count 65533 →
      decodeBinaryContent zstd data = latin1Decode data) ∧
    (5 * (utf8DecodeReplace data).count 65533 < jsLength (utf8DecodeReplace data) →
      decodeBinaryContent zstd data = stripFFFD (utf8DecodeReplace data)) := by
  constructor
  · intro hle
    simp [decodeBinaryContent, decodeBinaryContentBody, hmagic, hne, Nat.not_lt.mpr hle]
  · intro hlt
    simp [decodeBinaryContent, decodeBinaryContentBody, hmagic, hne, hlt]

/-- Witness for the amended C7 at the buffer 61 62 63 64 FF, where exactly one
of five characters is U+FFFD: the code takes the latin1 branch. -/
theorem C7_amended_witness :
    hasZstdMagic [97, 98, 99, 100, 255] = false ∧
    jsLength (utf8DecodeReplace [97, 98, 99, 100, 255]) ≤
      5 * (utf8DecodeReplace [97, 98, 99, 100, 255]).count 65533 ∧
    decodeBinaryContent zstdNone [97, 98, 99, 100, 255] =
      latin1Decode [97, 98, 99, 100, 255] := by
  refine ⟨by decide, by decide, ?_⟩
  exact (C7_amended_decode_heuristic zstdNone [97, 98, 99, 100, 255]
    (by decide) (by decide)).1 (by decide)

/-! ## Message content parser (exportService.ts lines 149-164, 234-389)

Strings here are `String` / `List Char`. Each regular expression of the source
is embedded as a scanner with the exact matching semantics of the JS engine on
the pattern in question (leftmost match, lazy or forced groups, the dot not
matching line terminators, case folding for the i flag). -/

/-- The JavaScript \s class: whitespace and line terminators. -/
def isJsWs (c : Char) : Bool :=
  let n := c.toNat
  n == 32 || (9 ≤ n && n ≤ 13) || n == 160 || n == 5760 || (8192 ≤ n && n ≤ 8202) ||
  n == 8232 || n == 8233 || n == 8239 || n == 8287 || n == 12288 || n == 65279

/-- The JavaScript line terminators, which the dot does not match. -/
def isNl (c : Char) : Bool :=
  let n := c.toNat
  n == 10 || n == 13 || n == 8232 || n == 8233

/-- ASCII lowercase folding on a code point, sufficient for the i flag on the
ASCII-only patterns of the source. -/
def lowerCp (n : Nat) : Nat := if 65 ≤ n && n ≤ 90 then n + 32 else n

/-- Case-insensitive character comparison. -/
def charCiEq (a b : Char) : Bool := lowerCp a.toNat == lowerCp b.toNat

/-- Case-insensitive prefix test. -/
def startsWithCI : List Char → List Char → Bool
  | [], _ => true
  | _ :: _, [] => false
  | p :: ps, c :: cs => charCiEq p c && startsWithCI ps cs

/-- Index of the first case-insensitive occurrence of a pattern. -/
def findSubCI (pat : List Char) : List Char → Option Nat
  | [] => if pat.isEmpty then some 0 else none
  | c :: rest =>
    if startsWithCI pat (c :: rest) then some 0
    else (findSubCI pat rest).map (fun n => n + 1)

/-- Case-sensitive substring test, as String.prototype.includes. -/
def containsList (pat : List Char) : List Char → Bool
  | [] => pat.isEmpty
  | c :: rest => List.isPrefixOf pat (c :: rest) || containsList pat rest

/-- content.includes(pat) on Lean strings. -/
def containsStr (s pat : String) : Bool := containsList pat.data s.data

/-- String.prototype.trim: drop leading and trailing \s characters. -/
def lcTrim (l : List Char) : List Char :=
  ((l.dropWhile isJsWs).reverse.dropWhile isJsWs).reverse

/-- Worker of the global literal replacement with the empty string: the skip
counter consumes the tail of a match so that recursion stays on the direct
tail of the list. -/
def removeAllSubGo (pat : List Char) : List Char → Nat → List Char
  | [], _ => []
  | _ :: rest, skip + 1 => removeAllSubGo pat rest skip
  | c :: rest, 0 =>
    if !pat.isEmpty && List.isPrefixOf pat (c :: rest) then
      removeAllSubGo pat rest (pat.length - 1)
    else c :: removeAllSubGo pat rest 0

/-- s.replace(new RegExp(literal, "g"), ""): delete every occurrence of a
literal pattern, scanning left to right without overlap. -/
def removeAllSub (pat l : List Char) : List Char := removeAllSubGo pat l 0

/-- The two global CDATA-marker deletions of lines 270 and 305. -/
def removeCdata (l : List Char) : List Char :=
  removeAllSub "]]>".data (removeAllSub "<![CDATA[".data l)

/-- Lazy group between two literal delimiters where the group may contain any
character, as /open([\s\S]*?)close/i: the first occurrence of the opening
delimiter, then the first occurrence of the closing delimiter after it. -/
def betweenCI (openPat closePat s : List Char) : Option (List Char) :=
  match findSubCI openPat s with
  | none => none
  | some i =>
    let rest := s.drop (i + openPat.length)
    match findSubCI closePat rest with
    | none => none
    | some j => some (rest.take j)

/-- Lazy group between two literal delimiters where the group is matched by
(.*?), which does not cross line terminators: at each occurrence of the
opening delimiter the first close is tried, and a group containing a line
terminator makes the engine retry from the next start position. -/
def scanBetweenNoNl (openPat closePat : List Char) : List Char → Option (List Char)
  | [] => none
  | c :: rest =>
    if startsWithCI openPat (c :: rest) then
      let after := (c :: rest).drop openPat.length
      match findSubCI closePat after with
      | none => none
      | some j =>
        let grp := after.take j
        if grp.any isNl then scanBetweenNoNl openPat closePat rest else some grp
    else scanBetweenNoNl openPat closePat rest

/-- The sysmsg unwrap regex /<sysmsg[^>]*>([\s\S]*?)<\/sysmsg>/i of line 280:
after "<sysmsg" a greedy run of non-">" characters must reach a ">", then the
lazy group runs to the first "</sysmsg>". -/
def scanSysmsg : List Char → Option (List Char)
  | [] => none
  | c :: rest =>
    if startsWithCI "<sysmsg".data (c :: rest) then
      let after0 := (c :: rest).drop 7
      let run := after0.takeWhile (fun x => x != '>')
      match after0.drop run.length with
      | '>' :: body =>
        match findSubCI "</sysmsg>".data body with
        | some j => some (body.take j)
        | none => none
      | _ => scanSysmsg rest
    else scanSysmsg rest

/-- parseInt on a run of ASCII digits. -/
def digitsToNat (ds : List Char) : Nat :=
  ds.foldl (fun n c => n * 10 + (c.toNat - 48)) 0

/-- A pattern of the shape /open(\d+)close/i, as the room_type and type
extractions: at each occurrence of the opening literal the greedy digit run
must be non-empty and be followed directly by the closing literal. -/
def scanTagDigits (openPat closePat : List Char) : List Char → Option Nat
  | [] => none
  | c :: rest =>
    if startsWithCI openPat (c :: rest) then
      let after := (c :: rest).drop openPat.length
      let ds := after.takeWhile Char.isDigit
      if !ds.isEmpty && startsWithCI closePat (after.drop ds.length) then
        some (digitsToNat ds)
      else scanTagDigits openPat closePat rest
    else scanTagDigits openPat closePat rest

/-- The optional seconds group (?::\d{2})? of the duration regex. -/
def optSec : List Char → List Char
  | ':' :: x :: y :: _ => if x.isDigit && y.isDigit then [':', x, y] else []
  | _ => []

/-- The one-digit alternative of \d{1,2} after backtracking. -/
def tryOneDigit : List Char → Option (List Char)
  | a :: ':' :: c :: d :: rest =>
    if a.isDigit && c.isDigit && d.isDigit then some ([a, ':', c, d] ++ optSec rest)
    else none
  | _ => none

/-- \d{1,2}:\d{2}(?::\d{2})? anchored at the head: two digits are tried
greedily before backtracking to one. -/
def tryDuration (l : List Char) : Option (List Char) :=
  match l with
  | a :: b :: ':' :: c :: d :: rest =>
    if a.isDigit && b.isDigit && c.isDigit && d.isDigit then
      some ([a, b, ':', c, d] ++ optSec rest)
    else tryOneDigit l
  | _ => tryOneDigit l

/-- The duration regex of line 344: each occurrence of the phrase is tried in
order, greedy whitespace cannot interfere with the digits that follow it. -/
def durationExtract : List Char → Option (List Char)
  | [] => none
  | c :: rest =>
    if List.isPrefixOf "通话时长".data (c :: rest) then
      match tryDuration (((c :: rest).drop 4).dropWhile isJsWs) with
      | some d => some d
      | none => durationExtract rest
    else durationExtract rest

/-- Worker of the \s+ to single-space global replacement of line 311; the flag
records whether the previous character was part of a whitespace run. -/
def collapseWsGo : List Char → Bool → List Char
  | [], _ => []
  | c :: rest, inRun =>
    if isJsWs c then
      if inRun then collapseWsGo rest true else ' ' :: collapseWsGo rest true
    else c :: collapseWsGo rest false

/-- s.replace(/\s+/g, " "). -/
def collapseWs (l : List Char) : List Char := collapseWsGo l false

/-- A character of the tag-name class [a-zA-Z0-9_:]. -/
def isTagNameChar (c : Char) : Bool := c.isAlpha || c.isDigit || c == '_' || c == ':'

/-- Length of a match of /<\/?[a-zA-Z0-9_:]+[^>]*>/ anchored at the head. -/
def tagMatchLen : List Char → Option Nat
  | '<' :: rest =>
    let p := match rest with
      | '/' :: r => (1, r)
      | _ => (0, rest)
    let nameRun := p.2.takeWhile isTagNameChar
    if nameRun.isEmpty then none
    else
      let afterName := p.2.drop nameRun.length
      let run := afterName.takeWhile (fun x => x != '>')
      match afterName.drop run.length with
      | '>' :: _ => some (1 + p.1 + nameRun.length + run.length + 1)
      | _ => none
  | _ => none

/-- Worker of the tag-deleting global replacement of line 310. -/
def stripTagsGo : List Char → Nat → List Char
  | [], _ => []
  | _ :: rest, skip + 1 => stripTagsGo rest skip
  | c :: rest, 0 =>
    match tagMatchLen (c :: rest) with
    | some k => stripTagsGo rest (k - 1)
    | none => c :: stripTagsGo rest 0

/-- s.replace(/<\/?[a-zA-Z0-9_:]+[^>]*>/g, ""). -/
def stripTags (l : List Char) : List Char := stripTagsGo l 0

/-- Length of a match of /<img[^>]*>/i anchored at the head. -/
def imgMatchLen (l : List Char) : Option Nat :=
  if startsWithCI "<img".data l then
    let after := l.drop 4
    let run := after.takeWhile (fun x => x != '>')
    match after.drop run.length with
    | '>' :: _ => some (4 + run.length + 1)
    | _ => none
  else none

/-- Worker of the img-deleting global replacement of line 309. -/
def stripImgTagsGo : List Char → Nat → List Char
  | [], _ => []
  | _ :: rest, skip + 1 => stripImgTagsGo rest skip
  | c :: rest, 0 =>
    match imgMatchLen (c :: rest) with
    | some k => stripImgTagsGo rest (k - 1)
    | none => c :: stripImgTagsGo rest 0

/-- s.replace(/<img[^>]*>/gi, ""). -/
def stripImgTags (l : List Char) : List Char := stripImgTagsGo l 0

/-- Length of a match of /<[^>]+>/ anchored at the head, used by the pat
branch of line 300. -/
def simpleTagMatchLen : List Char → Option Nat
  | '<' :: rest =>
    let run := rest.takeWhile (fun x => x != '>')
    if run.isEmpty then none
    else
      match rest.drop run.length with
      | '>' :: _ => some (1 + run.length + 1)
      | _ => none
  | _ => none

/-- Worker of the simple tag-deleting replacement. -/
def stripTagsSimpleGo : List Char → Nat → List Char
  | [], _ => []
  | _ :: rest, skip + 1 => stripTagsSimpleGo rest skip
  | c :: rest, 0 =>
    match simpleTagMatchLen (c :: rest) with
    | some k => stripTagsSimpleGo rest (k - 1)
    | none => c :: stripTagsSimpleGo rest 0

/-- s.replace(/<[^>]+>/g, ""). -/
def stripTagsSimple (l : List Char) : List Char := stripTagsSimpleGo l 0

/-- The regex source string that line 297 hands to the RegExp constructor for
a template variable name. The enclosing backtick template literal turns the
written escapes into the pattern <NAME><!\[CDATA\[([^]]*)\]\]></NAME>
(note that the template escape \] is processed to a bare ], so the class the
author wrote as [^\]] reaches the regex engine as [^], the match-anything
class, followed by a literal ] under the star). -/
def varRegexPattern (name : List Char) : List Char :=
  '<' :: (name ++ "><!\\[CDATA\\[([^]]*)\\]\\]></".data ++ name ++ ">".data)

/-- Syntactic validity scan of a JS regex source, modelling the SyntaxError
the RegExp constructor throws: a backslash must be followed by a character, a
character class runs to the first unescaped ] (an immediate ] closes an empty
class, as in ECMAScript), groups must balance. Arguments: remaining source,
open-group depth, inside-class flag. -/
def regexScanOk : List Char → Nat → Bool → Bool
  | [], d, inClass => !inClass && d == 0
  | c :: rest, d, inClass =>
    if c == '\\' then
      match rest with
      | [] => false
      | _ :: r => regexScanOk r d inClass
    else if inClass then
      if c == ']' then regexScanOk rest d false else regexScanOk rest d true
    else if c == '[' then regexScanOk rest d true
    else if c == '(' then regexScanOk rest (d + 1) false
    else if c == ')' then
      if d == 0 then false else regexScanOk rest (d - 1) false
    else regexScanOk rest d false

/-- The group of <NAME><!\[CDATA\[([^]]*)\]\]></NAME> at one candidate start:
the processed class [^]] followed by * matches one arbitrary character and
then a run of ] characters, and the forced tail \]\]> plus the closing tag
must follow. -/
def scanVarCdata (openPat closeTail : List Char) : List Char → Option (List Char)
  | [] => none
  | c :: rest =>
    if startsWithCI openPat (c :: rest) then
      match (c :: rest).drop openPat.length with
      | [] => scanVarCdata openPat closeTail rest
      | a :: r =>
        let k := (r.takeWhile (fun x => x == ']')).length
        if 2 ≤ k && startsWithCI closeTail (r.drop k) then
          some (a :: List.replicate (k - 2) ']')
        else scanVarCdata openPat closeTail rest
    else scanVarCdata openPat closeTail rest

/-- The substitution callback of lines 296-299: the match of the constructed
variable regex against the (sysmsg-unwrapped) content, or the empty string. -/
def cdataVarLookup (content name : List Char) : List Char :=
  (scanVarCdata ('<' :: (name ++ "><![CDATA[".data)) ("></".data ++ name ++ ">".data)
      content).getD []

/-- The global replacement of /\$\{([^}]+)\}/ with the callback of line 296.
Each matched variable name is interpolated into a new RegExp source; an
invalid source (such as a name containing an unbalanced parenthesis) makes
the constructor throw, modelled by `Except.error`. The skip counter consumes
the remainder of a match. -/
def substVarsGo (content : List Char) : List Char → Nat → Except Unit (List Char)
  | [], _ => Except.ok []
  | _ :: rest, skip + 1 => substVarsGo content rest skip
  | c :: rest, 0 =>
    if c == '$' then
      match rest with
      | '{' :: rest2 =>
        let name := rest2.takeWhile (fun x => x != '}')
        if name.isEmpty then
          match substVarsGo content rest 0 with
          | Except.ok tail => Except.ok ('$' :: tail)
          | Except.error e => Except.error e
        else
          match rest2.drop name.length with
          | '}' :: _ =>
            if regexScanOk (varRegexPattern name) 0 false then
              match substVarsGo content rest (name.length + 2) with
              | Except.ok tail => Except.ok (cdataVarLookup content name ++ tail)
              | Except.error e => Except.error e
            else Except.error ()
          | _ =>
            match substVarsGo content rest 0 with
            | Except.ok tail => Except.ok ('$' :: tail)
            | Except.error e => Except.error e
      | _ =>
        match substVarsGo content rest 0 with
        | Except.ok tail => Except.ok ('$' :: tail)
        | Except.error e => Except.error e
    else
      match substVarsGo content rest 0 with
      | Except.ok tail => Except.ok (c :: tail)
      | Except.error e => Except.error e

/-- A character of the sender-prefix class [a-zA-Z0-9_-]. -/
def isWordDashChar (c : Char) : Bool := c.isAlpha || c.isDigit || c == '_' || c == '-'

/-- stripSenderPrefix (line 262): remove a leading "sender:" token unless the
colon is followed by "//" (so URL schemes survive). -/
def stripSenderPrefix (content : String) : String :=
  let cs := content.data
  let rest := cs.dropWhile isJsWs
  let word := rest.takeWhile isWordDashChar
  if word.isEmpty then content
  else
    match rest.drop word.length with
    | ':' :: tail => if List.isPrefixOf "//".data tail then content else String.mk tail
    | _ => content

/-- extractXmlValue (lines 266-273): lazy group between <tag> and </tag>
(case-insensitive), CDATA markers removed, trimmed; the empty string when the
tag is absent. -/
def extractXmlValue (xml tagName : String) : String :=
  match betweenCI ('<' :: (tagName.data ++ ">".data))
      ("</".data ++ tagName.data ++ ">".data) xml.data with
  | none => ""
  | some grp => String.mk (lcTrim (removeCdata grp))

/-- cleanSystemMessage (lines 275-313). The pat-template branch constructs a
RegExp from the untrusted variable name and can therefore throw; every other
step is total. -/
def cleanSystemMessage (content : String) : Except Unit String :=
  if content = "" then Except.ok "[系统消息]"
  else
    let cs0 := content.data
    let cs := match scanSysmsg cs0 with
      | some inner => inner
      | none => cs0
    match scanBetweenNoNl "<replacemsg><![CDATA[".data "]]></replacemsg>".data cs with
    | some grp => Except.ok (String.mk (lcTrim grp))
    | none =>
      match scanBetweenNoNl "<template><![CDATA[".data "]]></template>".data cs with
      | some tmpl =>
        match substVarsGo cs tmpl 0 with
        | Except.error e => Except.error e
        | Except.ok substituted => Except.ok (String.mk (lcTrim (stripTagsSimple substituted)))
      | none =>
        let cleaned := lcTrim (collapseWs (stripTags (stripImgTags (removeCdata cs))))
        Except.ok (if cleaned.isEmpty then "[系统消息]" else String.mk cleaned)

/-- parseVoipMessage (lines 320-370). Every operation of the body is total, so
the catch of line 367 is unreachable and the function returns a plain string. -/
def parseVoipMessage (content : String) : String :=
  if content = "" then "[通话]"
  else
    let cs := content.data
    let msg := lcTrim ((scanBetweenNoNl "<msg><![CDATA[".data "]]></msg>".data cs).getD [])
    let roomType := scanTagDigits "<room_type>".data "</room_type>".data cs
    let callType := match roomType with
      | some 0 => "视频通话"
      | some 1 => "语音通话"
      | some _ => "通话"
      | none => "通话"
    if containsList "通话时长".data msg then
      match durationExtract msg with
      | some dur => "[" ++ callType ++ "] " ++ String.mk dur
      | none => "[" ++ callType ++ "] 已接听"
    else if containsList "对方无应答".data msg then "[" ++ callType ++ "] 对方无应答"
    else if containsList "已取消".data msg then "[" ++ callType ++ "] 已取消"
    else if containsList "已在其它设备接听".data msg || containsList "已在其他设备接听".data msg then
      "[" ++ callType ++ "] 已在其他设备接听"
    else if containsList "对方已拒绝".data msg || containsList "已拒绝".data msg then
      "[" ++ callType ++ "] 对方已拒绝"
    else if containsList "忙线未接听".data msg || containsList "忙线".data msg then
      "[" ++ callType ++ "] 忙线未接听"
    else if containsList "未接听".data msg then "[" ++ callType ++ "] 未接听"
    else if !msg.isEmpty then "[" ++ callType ++ "] " ++ String.mk msg
    else "[" ++ callType ++ "]"

/-- The MESSAGE_TYPE_MAP constant of lines 52-63 with the ?? 99 default of
line 163. -/
def messageTypeMap (t : Nat) : Nat :=
  if t == 1 then 0 else if t == 3 then 1 else if t == 34 then 2
  else if t == 43 then 3 else if t == 49 then 7 else if t == 47 then 5
  else if t == 48 then 8 else if t == 42 then 27 else if t == 50 then 23
  else if t == 10000 then 80 else 99

/-- convertMessageType (lines 149-164): a code-49 message with an embedded
<type> sub-tag is refined to file, share, or reply; everything else goes
through the static map. -/
def convertMessageType (localType : Nat) (content : String) : Nat :=
  if localType == 49 then
    match scanTagDigits "<type>".data "</type>".data content.data with
    | some subType =>
      if subType == 6 then 4
      else if subType == 33 || subType == 36 then 24
      else if subType == 57 then 25
      else 7
    | none => messageTypeMap localType
  else messageTypeMap localType

/-- parseMessageContent (lines 234-260): dispatch on localType; the system
branches can raise through cleanSystemMessage. -/
def parseMessageContent (content : String) (localType : Nat) : Except Unit (Option String) :=
  if content = "" then Except.ok none
  else if localType == 1 then Except.ok (some ( stripSenderPrefix content))
  else if localType == 3 then Except.ok (some "[图片]")
  else if localType == 34 then Except.ok (some "[语音消息]")
  else if localType == 42 then Except.ok (some "[名片]")
  else if localType == 43 then Except.ok (some "[视频]")
  else if localType == 47 then Except.ok (some "[动画表情]")
  else if localType == 48 then Except.ok (some "[位置]")
  else if localType == 49 then
    let title := extractXmlValue content "title"
    Except.ok (some (if title = "" then "[链接]" else title))
  else if localType == 50 then Except.ok (some (parseVoipMessage content))
  else if localType == 10000 || localType == 266287972401 then
    match cleanSystemMessage content with
    | Except.ok s => Except.ok (some s)
    | Except.error e => Except.error e
  else if containsStr content "<type>57</type>" then
    let title := extractXmlValue content "title"
    Except.ok (some (if title = "" then "[引用消息]" else title))
  else
    let s := stripSenderPrefix content
    Except.ok (if s = "" then none else some s)

/-- Decidable equality for Except results, used to evaluate the parser on
concrete inputs. -/
instance {ε α : Type} [DecidableEq ε] [DecidableEq α] : DecidableEq (Except ε α) := fun x y =>
  match x, y with
  | Except.ok a, Except.ok b =>
    if h : a = b then isTrue (by rw [h]) else isFalse (fun hh => h (Except.ok.inj hh))
  | Except.error a, Except.error b =>
    if h : a = b then isTrue (by rw [h]) else isFalse (fun hh => h (Except.error.inj hh))
  | Except.ok _, Except.error _ => isFalse (fun hh => Except.noConfusion hh)
  | Except.error _, Except.ok _ => isFalse (fun hh => Except.noConfusion hh)

/-- C6: the claim says parseMessageContent never throws for any content and
localType. The code contradicts it: a localType-10000 system message whose
pat template embeds the placeholder name "(" makes line 297 construct the
regex source <(><!\[CDATA\[([^]]*)\]\]></(> whose groups do not balance, so
the RegExp constructor throws a SyntaxError that no try/catch intercepts,
modelled here by `Except.error ()`. The claimed null-on-empty behaviour and
the generic call label do hold. -/
theorem C6_parse_throws_on_pat_template :
    parseMessageContent "<template><![CDATA[${(}]]></template>" 10000 = Except.error () ∧
    regexScanOk (varRegexPattern "(".data) 0 false = false ∧
    (∀ t : Nat, parseMessageContent "" t = Except.ok none) ∧
    parseVoipMessage "garbage" = "[通话]" ∧
    parseMessageContent "<voipmsg></voipmsg>" 50 = Except.ok (some "[通话]") := by
  refine ⟨by decide, by decide, ?_, by decide, by decide⟩
  intro t
  simp [parseMessageContent]

/-- C8: a localType-50 call message with room_type 1 and a msg payload
containing the duration phrase parses to the voice-call label with the
extracted duration. -/
theorem C8_call_message_formatting :
    parseVoipMessage "<voipmsg type=\"VoIPBubbleMsg\"><VoIPBubbleMsg><msg><![CDATA[通话时长 01:23]]></msg><room_type>1</room_type></VoIPBubbleMsg></voipmsg>" = "[语音通话] 01:23" ∧
    parseMessageContent "<voipmsg type=\"VoIPBubbleMsg\"><VoIPBubbleMsg><msg><![CDATA[通话时长 01:23]]></msg><room_type>1</room_type></VoIPBubbleMsg></voipmsg>" 50 =
      Except.ok (some "[语音通话] 01:23") := by
  constructor <;> decide

/-- C9: a localType-49 message whose content embeds <type>6</type> and a
CDATA-wrapped title parses to the unwrapped trimmed title, and
convertMessageType classifies it as the file type 4 rather than the generic
link type 7. -/
theorem C9_file_link_subtype :
    parseMessageContent "<msg><appmsg><type>6</type><title><![CDATA[report.pdf]]></title></appmsg></msg>" 49 =
      Except.ok (some "report.pdf") ∧
    convertMessageType 49 "<msg><appmsg><type>6</type><title><![CDATA[report.pdf]]></title></appmsg></msg>" = 4 ∧
    convertMessageType 49 "<msg><appmsg><type>5</type><title><![CDATA[a page]]></title></appmsg></msg>" = 7 := by
  refine ⟨by decide, by decide, by decide⟩

/-! ## Final message ordering (exportService.ts lines 1116-1153, 1274, 1481)

Both exportSessionToChatLab and exportSessionToExcel order the collected rows
with allMessages.sort((a, b) => a.createTime - b.createTime). An ascending
numeric comparator under Array.prototype.sort, stable per ECMAScript 2019, is
exactly a stable sort by createTime; it is embedded as insertion sort that
keeps an element before later elements with an equal key. -/

/-- One collected message row (the fields of the objects pushed at
lines 814-825 that the writers use). -/
structure MsgRow where
  localId : Nat
  createTime : Nat
  localType : Nat
  content : String
  senderUsername : String
deriving DecidableEq

/-- Stable insertion of a row before the first strictly later row; an equal
createTime keeps the inserted row (which originates earlier in fetch order
than everything already inserted behind it) in front. -/
def insertRow (x : MsgRow) : List MsgRow → List MsgRow
  | [] => [x]
  | y :: ys => if x.createTime ≤ y.createTime then x :: y :: ys else y :: insertRow x ys

/-- allMessages.sort((a, b) => a.createTime - b.createTime). -/
def sortByCreateTime : List MsgRow → List MsgRow
  | [] => []
  | x :: xs => insertRow x (sortByCreateTime xs)

/-- One message of the ChatLab output (lines 1145-1152). -/
structure ChatLabMsgOut where
  sender : String
  timestamp : Nat
  mtype : Nat
  content : Option String
deriving DecidableEq

/-- Lines 1139-1152: parse the content (which can raise through the system
branch) and build the output message. -/
def buildChatLabMessage (r : MsgRow) : Except Unit ChatLabMsgOut :=
  match parseMessageContent r.content r.localType with
  | Except.error e => Except.error e
  | Except.ok c =>
    Except.ok ⟨r.senderUsername, r.createTime, convertMessageType r.localType r.content, c⟩

/-- The loop of lines 1132-1153 over the already-sorted rows. -/
def chatLabMessages : List MsgRow → Except Unit (List ChatLabMsgOut)
  | [] => Except.ok []
  | r :: rest =>
    match buildChatLabMessage r, chatLabMessages rest with
    | Except.ok m, Except.ok ms => Except.ok (m :: ms)
    | Except.error e, _ => Except.error e
    | _, Except.error e => Except.error e

/-- The message sequence of one exported ChatLab document: rows sorted by
createTime (line 1122), then converted. -/
def exportSessionMessages (rows : List MsgRow) : Except Unit (List ChatLabMsgOut) :=
  chatLabMessages (sortByCreateTime rows)

/-- Membership in an insertion. -/
theorem mem_insertRow {x b : MsgRow} :
    ∀ {l : List MsgRow}, b ∈ insertRow x l → b = x ∨ b ∈ l := by
  intro l
  induction l with
  | nil => intro h; simp [insertRow] at h; exact Or.inl h
  | cons y ys ih =>
    intro h
    rw [insertRow] at h
    by_cases hxy : x.createTime ≤ y.createTime
    · simp only [if_pos hxy, List.mem_cons] at h
      rcases h with h | h | h
      · exact Or.inl h
      · exact Or.inr (by simp [h])
      · exact Or.inr (by simp [h])
    · simp only [if_neg hxy, List.mem_cons] at h
      rcases h with h | h
      · exact Or.inr (by simp [h])
      · rcases ih h with h | h
        · exact Or.inl h
        · exact Or.inr (by simp [h])

/-- Inserting into a list sorted by createTime keeps it sorted. -/
theorem pairwise_insertRow (x : MsgRow) {l : List MsgRow}
    (h : List.Pairwise (fun a b => a.createTime ≤ b.createTime) l) :
    List.Pairwise (fun a b => a.createTime ≤ b.createTime) (insertRow x l) := by
  induction l with
  | nil => simp [insertRow]
  | cons y ys ih =>
    rw [List.pairwise_cons] at h
    rw [insertRow]
    by_cases hxy : x.createTime ≤ y.createTime
    · rw [if_pos hxy, List.pairwise_cons]
      refine ⟨?_, List.pairwise_cons.mpr h⟩
      intro b hb
      rcases List.mem_cons.mp hb with hb | hb
      · exact hb ▸ hxy
      · exact Nat.le_trans hxy (h.1 b hb)
    · rw [if_neg hxy, List.pairwise_cons]
      refine ⟨?_, ih h.2⟩
      intro b hb
      rcases mem_insertRow hb with hb | hb
      · exact hb ▸ Nat.le_of_lt (Nat.lt_of_not_le hxy)
      · exact h.1 b hb

/-- The output of the sort is sorted by non-decreasing createTime. -/
theorem pairwise_sortByCreateTime (rows : List MsgRow) :
    List.Pairwise (fun a b => a.createTime ≤ b.createTime) (sortByCreateTime rows) := by
  induction rows with
  | nil => simp [sortByCreateTime]
  | cons x xs ih => exact pairwise_insertRow x ih

/-- Insertion does not reorder the rows that carry any fixed createTime: the
inserted row passes only rows with a strictly smaller key. -/
theorem filter_insertRow (t : Nat) (x : MsgRow) (l : List MsgRow) :
    (insertRow x l).filter (fun r => r.createTime == t) =
      (x :: l).filter (fun r => r.createTime == t) := by
  induction l with
  | nil => rfl
  | cons y ys ih =>
    rw [insertRow]
    by_cases hxy : x.createTime ≤ y.createTime
    · rw [if_pos hxy]
    · rw [if_neg hxy]
      have hyx : y.createTime < x.createTime := Nat.lt_of_not_le hxy
      by_cases hx : x.createTime = t
      · have hy : (y.createTime == t) = false := by
          apply Nat.ne_of_lt at hyx
          simp only [beq_eq_false_iff_ne, ne_eq]
          omega
        simp only [List.filter_cons, hy, ih, hx]
        simp
      · have hx2 : (x.createTime == t) = false := by simp [hx]
        simp only [List.filter_cons, ih, hx2]
        simp


/-- Stability of the whole sort: for every key value the rows carrying it
appear in the output exactly in their original fetch order. -/
theorem filter_sortByCreateTime (t : Nat) (rows : List MsgRow) :
    (sortByCreateTime rows).filter (fun r => r.createTime == t) =
      rows.filter (fun r => r.createTime == t) := by
  induction rows with
  | nil => rfl
  | cons x xs ih =>
    rw [sortByCreateTime, filter_insertRow, List.filter_cons, List.filter_cons, ih]

/-- The sort is a permutation of the collected rows. -/
theorem perm_sortByCreateTime (rows : List MsgRow) :
    List.Perm (sortByCreateTime rows) rows := by
  induction rows with
  | nil => exact List.Perm.refl []
  | cons x xs ih =>
    rw [sortByCreateTime]
    refine List.Perm.trans ?_ (List.Perm.cons x ih)
    clear ih
    induction sortByCreateTime xs with
    | nil => simp [insertRow]
    | cons y ys ih2 =>
      rw [insertRow]
      by_cases hxy : x.createTime ≤ y.createTime
      · rw [if_pos hxy]
      · rw [if_neg hxy]
        exact List.Perm.trans (List.Perm.cons y ih2) (List.Perm.swap x y ys)

/-- Successful conversion keeps the row timestamps positionally. -/
theorem chatLabMessages_timestamps {l : List MsgRow} {ms : List ChatLabMsgOut}
    (h : chatLabMessages l = Except.ok ms) :
    ms.map (fun m => m.timestamp) = l.map (fun r => r.createTime) := by
  induction l generalizing ms with
  | nil =>
    simp only [chatLabMessages] at h
    cases h
    rfl
  | cons r rest ih =>
    rw [chatLabMessages] at h
    cases hb : buildChatLabMessage r with
    | error e => rw [hb] at h; exact absurd h (by simp)
    | ok m =>
      cases hr : chatLabMessages rest with
      | error e => rw [hb, hr] at h; exact absurd h (by simp)
      | ok ms2 =>
        rw [hb, hr] at h
        cases h
        have hts : m.timestamp = r.createTime := by
          rw [buildChatLabMessage] at hb
          cases hp : parseMessageContent r.content r.localType with
          | error e => rw [hp] at hb; exact absurd hb (by simp)
          | ok c =>
            rw [hp] at hb
            cases hb
            rfl
        simp [hts, ih hr]

/-- C4: in every exported document the message sequence is ordered by
non-decreasing createTime (stated on the timestamps of the built ChatLab
messages), and rows with an equal createTime keep their original fetch order
(the filter of the sorted rows at each key equals the filter of the input),
the sort being a permutation of the input. -/
theorem C4_chronological_and_stable (rows : List MsgRow) (msgs : List ChatLabMsgOut)
    (h : exportSessionMessages rows = Except.ok msgs) :
    List.Pairwise (fun a b => a.timestamp ≤ b.timestamp) msgs ∧
    (∀ t : Nat, (sortByCreateTime rows).filter (fun r => r.createTime == t) =
      rows.filter (fun r => r.createTime == t)) ∧
    List.Perm (sortByCreateTime rows) rows := by
  refine ⟨?_, fun t => filter_sortByCreateTime t rows, perm_sortByCreateTime rows⟩
  have hmap := chatLabMessages_timestamps h
  have hp := pairwise_sortByCreateTime rows
  have hp2 : List.Pairwise (fun a b : Nat => a ≤ b)
      ((sortByCreateTime rows).map (fun r => r.createTime)) :=
    List.pairwise_map.mpr hp
  rw [← hmap] at hp2
  exact List.pairwise_map.mp hp2

/-- Witness for C4 at two concrete out-of-order rows with one duplicate
timestamp: the exported sequence is 50, 100, 100 with the two rows of
timestamp 100 in fetch order. -/
theorem C4_witness :
    exportSessionMessages
        [⟨1, 100, 1, "b", "u1"⟩, ⟨2, 50, 1, "a", "u2"⟩, ⟨3, 100, 1, "c", "u3"⟩] =
      Except.ok
        [⟨"u2", 50, 0, some "a"⟩, ⟨"u1", 100, 0, some "b"⟩, ⟨"u3", 100, 0, some "c"⟩] ∧
    List.Pairwise (fun a b => a.timestamp ≤ b.timestamp)
      ([⟨"u2", 50, 0, some "a"⟩, ⟨"u1", 100, 0, some "b"⟩,
        ⟨"u3", 100, 0, some "c"⟩] : List ChatLabMsgOut) := by
  refine ⟨by decide, ?_⟩
  exact (C4_chronological_and_stable
    [⟨1, 100, 1, "b", "u1"⟩, ⟨2, 50, 1, "a", "u2"⟩, ⟨3, 100, 1, "c", "u3"⟩]
    [⟨"u2", 50, 0, some "a"⟩, ⟨"u1", 100, 0, some "b"⟩, ⟨"u3", 100, 0, some "c"⟩]
    (by decide)).1

/-! ## Identity resolver and roster merge (exportService.ts lines 97-108,
840-911)

The WCDB display-name and avatar maps are oracle association lists; JS object
lookup misses are `none`, and the || chains of the source treat the empty
string as absent. The member map is an association list with the JS Map
semantics: updating an existing key keeps its position, a new key is appended. -/

/-- x || y on JS strings where x may be undefined and "" is falsy. -/
def jsOr (x y : Option String) : Option String :=
  match x with
  | some s => if s = "" then y else some s
  | none => y

/-- x || y with a defined fallback. -/
def jsOrStr (x : Option String) (y : String) : String :=
  match x with
  | some s => if s = "" then y else s
  | none => y

/-- JS truthiness of an optional string. -/
def truthyOpt (x : Option String) : Bool :=
  match x with
  | some s => s != ""
  | none => false

/-- cleanAccountDirName (lines 97-108): a wxid-prefixed account keeps the
prefix and its first segment, otherwise a trailing _XXXX suffix of four
alphanumerics is stripped (the greedy dot of /^(.+)_([a-zA-Z0-9]{4})$/ does
not cross line terminators and pins the underscore to the fifth-last
character). -/
def cleanAccountDirName (dirName : String) : String :=
  let t := lcTrim dirName.data
  if t.isEmpty then String.mk t
  else if startsWithCI "wxid_".data t then
    let seg := (t.drop 5).takeWhile (fun c => c != '_')
    if seg.isEmpty then String.mk t else String.mk (t.take 5 ++ seg)
  else
    let n := t.length
    if 6 ≤ n &&
        (match t.drop (n - 5) with
         | '_' :: _ => true
         | _ => false) &&
        (t.drop (n - 4)).all Char.isAlphanum &&
        (t.take (n - 5)).all (fun c => !isNl c) then
      String.mk (t.take (n - 5))
    else String.mk t

/-- A member of the ChatLab output roster. -/
structure ChatLabMember where
  platformId : String
  accountName : String
  groupNickname : Option String
deriving DecidableEq

/-- One entry of the member map (member plus the avatar url kept beside it). -/
structure MemberEntry where
  member : ChatLabMember
  avatarUrl : Option String
deriving DecidableEq

/-- One raw roster row as returned by wcdbService.getGroupMembers. -/
structure RawGroupMember where
  username : Option String
  avatarUrl : Option String
  nickname : Option String
  displayName : Option String
  remark : Option String
  originalName : Option String

/-- The display-name and avatar lookups of lines 870-873, as association
lists behind the WCDB result flags. -/
structure LookupMaps where
  dnSuccess : Bool
  dnMap : Option (List (String × String))
  avSuccess : Bool
  avMap : Option (List (String × String))

/-- JS object property read map[k]. -/
def mapGet (m : List (String × String)) (k : String) : Option String :=
  match m with
  | [] => none
  | (k0, v) :: rest => if k0 = k then some v else mapGet rest k

/-- Lines 880-882: displayNames.map[username] || (cleaned && map[cleaned]) ||
username, behind the success flag. -/
def resolveDisplayName (maps : LookupMaps) (username cleaned : String) : String :=
  if maps.dnSuccess then
    match maps.dnMap with
    | some m =>
      jsOrStr (jsOr (mapGet m username) (if cleaned ≠ "" then mapGet m cleaned else none))
        username
    | none => username
  else username

/-- Lines 884-886: the avatar lookup behind includeAvatars and the success
flag, falling back to the roster row's own avatarUrl. -/
def resolveAvatarUrl (includeAvatars : Bool) (maps : LookupMaps)
    (username cleaned : String) (memberAvatar : Option String) : Option String :=
  if includeAvatars && maps.avSuccess then
    match maps.avMap with
    | some m =>
      jsOr (jsOr (mapGet m username) (if cleaned ≠ "" then mapGet m cleaned else none))
        memberAvatar
    | none => memberAvatar
  else memberAvatar

/-- Map.get on the member map. -/
def msGet (ms : List (String × MemberEntry)) (k : String) : Option MemberEntry :=
  match ms with
  | [] => none
  | (k0, v) :: rest => if k0 = k then some v else msGet rest k

/-- Map.set on the member map: an existing key keeps its position, a new key
is appended. -/
def msSet (ms : List (String × MemberEntry)) (k : String) (v : MemberEntry) :
    List (String × MemberEntry) :=
  match ms with
  | [] => [(k, v)]
  | (k0, v0) :: rest => if k0 = k then (k0, v) :: rest else (k0, v0) :: msSet rest k v

/-- Lines 889-898, the backfill of an entry that is already present:
accountName only when it still equals the platformId and the resolved name is
a different non-empty string, groupNickname and avatar only when absent. -/
def updateEntry (displayName : String) (groupNickname avatarUrl : Option String)
    (e : MemberEntry) : MemberEntry :=
  let e1 :=
    if displayName ≠ "" ∧ e.member.accountName = e.member.platformId ∧
        displayName ≠ e.member.platformId then
      { e with member := { e.member with accountName := displayName } }
    else e
  let e2 :=
    if truthyOpt groupNickname && !truthyOpt e1.member.groupNickname then
      { e1 with member := { e1.member with groupNickname := groupNickname } }
    else e1
  if !truthyOpt e2.avatarUrl && truthyOpt avatarUrl then
    { e2 with avatarUrl := avatarUrl }
  else e2

/-- The body of the for loop of lines 875-911 for one roster row. -/
def mergeStep (includeAvatars : Bool) (maps : LookupMaps)
    (ms : List (String × MemberEntry)) (m : RawGroupMember) :
    List (String × MemberEntry) :=
  match m.username with
  | none => ms
  | some username =>
    if username = "" then ms
    else
      let cleaned := cleanAccountDirName username
      let displayName := resolveDisplayName maps username cleaned
      let groupNickname := jsOr (jsOr (jsOr m.nickname m.displayName) m.remark) m.originalName
      let avatarUrl := resolveAvatarUrl includeAvatars maps username cleaned m.avatarUrl
      match msGet ms username with
      | some e => msSet ms username (updateEntry displayName groupNickname avatarUrl e)
      | none =>
        let mem : ChatLabMember :=
          { platformId := username, accountName := displayName,
            groupNickname := if truthyOpt groupNickname then groupNickname else none }
        msSet ms username ⟨mem, avatarUrl⟩

/-- mergeGroupMembers (lines 840-911): the early returns of lines 845-859
leave the map unchanged; otherwise every roster row is folded in. -/
def mergeGroupMembers (rosterSuccess : Bool) (rawMembers : List RawGroupMember)
    (includeAvatars : Bool) (maps : LookupMaps)
    (ms : List (String × MemberEntry)) : List (String × MemberEntry) :=
  if !rosterSuccess || rawMembers.isEmpty then ms
  else if ((rawMembers.filterMap (fun m => m.username)).filter (fun u => u != "")).isEmpty then
    ms
  else rawMembers.foldl (mergeStep includeAvatars maps) ms

/-- The properties of an existing member entry that a roster merge must
preserve: the platform id, a resolved account name, a present nickname, a
present avatar. -/
def entryKeeps (e f : MemberEntry) : Prop :=
  f.member.platformId = e.member.platformId ∧
  (e.member.accountName ≠ e.member.platformId →
    f.member.accountName = e.member.accountName) ∧
  (truthyOpt e.member.groupNickname = true →
    f.member.groupNickname = e.member.groupNickname) ∧
  (truthyOpt e.avatarUrl = true → f.avatarUrl = e.avatarUrl)

theorem entryKeeps_refl (e : MemberEntry) : entryKeeps e e :=
  ⟨rfl, fun _ => rfl, fun _ => rfl, fun _ => rfl⟩

theorem updateEntry_platformId (d : String) (n a : Option String) (f : MemberEntry) :
    (updateEntry d n a f).member.platformId = f.member.platformId := by
  simp only [updateEntry]
  split_ifs <;> rfl

theorem updateEntry_accountName (d : String) (n a : Option String) (f : MemberEntry)
    (h : f.member.accountName ≠ f.member.platformId) :
    (updateEntry d n a f).member.accountName = f.member.accountName := by
  simp only [updateEntry]
  split_ifs <;> first | rfl | tauto

theorem updateEntry_groupNickname (d : String) (n a : Option String) (f : MemberEntry)
    (h : truthyOpt f.member.groupNickname = true) :
    (updateEntry d n a f).member.groupNickname = f.member.groupNickname := by
  simp only [updateEntry]
  split_ifs <;> first | rfl | simp_all

theorem updateEntry_avatarUrl (d : String) (n a : Option String) (f : MemberEntry)
    (h : truthyOpt f.avatarUrl = true) :
    (updateEntry d n a f).avatarUrl = f.avatarUrl := by
  simp only [updateEntry]
  split_ifs <;> first | rfl | simp_all

theorem updateEntry_keeps (d : String) (n a : Option String) (e f : MemberEntry)
    (hk : entryKeeps e f) : entryKeeps e (updateEntry d n a f) := by
  obtain ⟨hpid, hacc, hnick, hav⟩ := hk
  refine ⟨by rw [updateEntry_platformId, hpid], ?_, ?_, ?_⟩
  · intro h
    have hfa : f.member.accountName = e.member.accountName := hacc h
    have hne : f.member.accountName ≠ f.member.platformId := by
      rw [hfa, hpid]; exact h
    rw [updateEntry_accountName d n a f hne, hfa]
  · intro h
    have hfn : f.member.groupNickname = e.member.groupNickname := hnick h
    have ht : truthyOpt f.member.groupNickname = true := by rw [hfn]; exact h
    rw [updateEntry_groupNickname d n a f ht, hfn]
  · intro h
    have hfa : f.avatarUrl = e.avatarUrl := hav h
    have ht : truthyOpt f.avatarUrl = true := by rw [hfa]; exact h
    rw [updateEntry_avatarUrl d n a f ht, hfa]

theorem msGet_msSet (ms : List (String × MemberEntry)) (k u : String) (v : MemberEntry) :
    msGet (msSet ms k v) u = if k = u then some v else msGet ms u := by
  induction ms with
  | nil => by_cases h : k = u <;> simp [msSet, msGet, h]
  | cons p rest ih =>
    obtain ⟨k0, v0⟩ := p
    by_cases h0 : k0 = k
    · subst h0
      by_cases hu : k0 = u <;> simp [msSet, msGet, hu]
    · by_cases hu : k0 = u
      · have hku : ¬k = u := fun hh => h0 (hu.trans hh.symm)
        have huk : ¬u = k := fun hh => hku hh.symm
        simp [msSet, msGet, h0, hu, hku, huk]
      · simp [msSet, msGet, h0, hu, ih]

/-- One roster row leaves every preserved property of an existing entry
intact: an entry under a different key is untouched, and an entry under this
row's key is only backfilled through updateEntry. -/
theorem mergeStep_keeps (includeAvatars : Bool) (maps : LookupMaps)
    (m : RawGroupMember) (ms : List (String × MemberEntry)) (u : String)
    (e f : MemberEntry) (hget : msGet ms u = some f) (hk : entryKeeps e f) :
    ∃ g, msGet (mergeStep includeAvatars maps ms m) u = some g ∧ entryKeeps e g := by
  unfold mergeStep
  cases hm : m.username with
  | none => exact ⟨f, hget, hk⟩
  | some username =>
    by_cases hemp : username = ""
    · simp only [hemp, if_pos rfl]
      exact ⟨f, hget, hk⟩
    · simp only [if_neg hemp]
      by_cases hu : username = u
      · subst hu
        rw [hget]
        refine ⟨updateEntry (resolveDisplayName maps username (cleanAccountDirName username))
          (jsOr (jsOr (jsOr m.nickname m.displayName) m.remark) m.originalName)
          (resolveAvatarUrl includeAvatars maps username (cleanAccountDirName username)
            m.avatarUrl) f, ?_, updateEntry_keeps _ _ _ e f hk⟩
        rw [msGet_msSet, if_pos rfl]
      · cases hg : msGet ms username with
        | some e0 =>
          refine ⟨f, ?_, hk⟩
          show msGet (msSet ms username _) u = some f
          rw [msGet_msSet, if_neg hu, hget]
        | none =>
          refine ⟨f, ?_, hk⟩
          show msGet (msSet ms username _) u = some f
          rw [msGet_msSet, if_neg hu, hget]

/-- Folding the whole roster keeps every preserved property. -/
theorem foldl_mergeStep_keeps (includeAvatars : Bool) (maps : LookupMaps)
    (rawMembers : List RawGroupMember) (u : String) (e : MemberEntry) :
    ∀ ms f, msGet ms u = some f → entryKeeps e f →
      ∃ g, msGet (rawMembers.foldl (mergeStep includeAvatars maps) ms) u = some g ∧
        entryKeeps e g := by
  induction rawMembers with
  | nil => intro ms f hget hk; exact ⟨f, hget, hk⟩
  | cons m rest ih =>
    intro ms f hget hk
    obtain ⟨g, hg, hkg⟩ := mergeStep_keeps includeAvatars maps m ms u e f hget hk
    exact ih (mergeStep includeAvatars maps ms m) g hg hkg

/-- C5: a member already present in the map keeps its accountName whenever it
differs from the platformId, whatever the roster lookup returns; a present
groupNickname and a present avatar are never overwritten (backfilling happens
only into absent fields), and the platformId is never touched. -/
theorem C5_merge_preserves_resolved_names (rosterSuccess includeAvatars : Bool)
    (rawMembers : List RawGroupMember) (maps : LookupMaps)
    (ms : List (String × MemberEntry)) (u : String) (e : MemberEntry)
    (hget : msGet ms u = some e) :
    ∃ f, msGet (mergeGroupMembers rosterSuccess rawMembers includeAvatars maps ms) u =
        some f ∧
      f.member.platformId = e.member.platformId ∧
      (e.member.accountName ≠ e.member.platformId →
        f.member.accountName = e.member.accountName) ∧
      (truthyOpt e.member.groupNickname = true →
        f.member.groupNickname = e.member.groupNickname) ∧
      (truthyOpt e.avatarUrl = true → f.avatarUrl = e.avatarUrl) := by
  unfold mergeGroupMembers
  by_cases h1 : (!rosterSuccess || rawMembers.isEmpty) = true
  · rw [if_pos h1]
    exact ⟨e, hget, entryKeeps_refl e⟩
  · rw [if_neg h1]
    by_cases h2 :
        ((rawMembers.filterMap (fun m => m.username)).filter (fun u => u != "")).isEmpty = true
    · rw [if_pos h2]
      exact ⟨e, hget, entryKeeps_refl e⟩
    · rw [if_neg h2]
      exact foldl_mergeStep_keeps includeAvatars maps rawMembers u e ms e hget
        (entryKeeps_refl e)

/-- Witness for C5: the member "u1" was resolved to "Alice" at message time;
the roster maps "u1" to "Bob" and carries a nickname and an avatar. After the
merge the accountName is still "Alice" while nickname and avatar, absent
before, are backfilled. -/
theorem C5_witness :
    msGet [("u1", ⟨⟨"u1", "Alice", none⟩, none⟩)] "u1" =
      some ⟨⟨"u1", "Alice", none⟩, none⟩ ∧
    (∃ f, msGet (mergeGroupMembers true
        [⟨some "u1", some "av", some "Nick", none, none, none⟩] true
        ⟨true, some [("u1", "Bob")], true, some []⟩
        [("u1", ⟨⟨"u1", "Alice", none⟩, none⟩)]) "u1" = some f ∧
      f.member.accountName = "Alice") := by
  refine ⟨rfl, ?_⟩
  obtain ⟨f, hf, hpid, hacc, hnick, hav⟩ :=
    C5_merge_preserves_resolved_names true true
      [⟨some "u1", some "av", some "Nick", none, none, none⟩]
      ⟨true, some [("u1", "Bob")], true, some []⟩
      [("u1", ⟨⟨"u1", "Alice", none⟩, none⟩)] "u1" ⟨⟨"u1", "Alice", none⟩, none⟩ rfl
  exact ⟨f, hf, hacc (by decide)⟩

/-! ## Media extractor (exportService.ts lines 450-637, 700-705)

The filesystem is a list of existing paths; the decrypt service, the voice
service, and the network are oracles. Each extractor returns the produced
MediaExportItem (or none), the filesystem afterwards, and how many file
writes (writeFileSync / copyFileSync / a completed download) it performed. -/

/-- The MediaExportItem of lines 77-80; the kind tag is kept as a string. -/
structure MediaExportItem where
  relativePath : String
  kind : String
deriving DecidableEq

/-- The outcome of one extractor run. -/
structure MediaStep where
  item : Option MediaExportItem
  fsys : List String
  writes : Nat
deriving DecidableEq

/-- path.join with the forward separator; the arguments of the source never
need normalization. -/
def pathJoin (a b : String) : String := a ++ "/" ++ b

/-- fs.writeFileSync: the path exists afterwards (an existing file is
overwritten in place). -/
def insertPath (p : String) (fsys : List String) : List String :=
  if fsys.contains p then fsys else p :: fsys

/-- The fields of an emoji message the extractor reads. -/
structure EmojiMsg where
  localId : Nat
  emojiCdnUrl : Option String
  emojiMd5 : Option String

/-- getExtFromDataUrl (lines 700-705). -/
def getExtFromDataUrl (dataUrl : String) : String :=
  if containsStr dataUrl "image/png" then ".png"
  else if containsStr dataUrl "image/gif" then ".gif"
  else if containsStr dataUrl "image/webp" then ".webp"
  else ".jpg"

/-- Lines 604-609: the extension guessed from the CDN URL. -/
def emojiExt (emojiCdnUrl : Option String) : String :=
  match emojiCdnUrl with
  | some url =>
    if url = "" then ".gif"
    else if containsStr url ".png" then ".png"
    else if containsStr url ".jpg" || containsStr url ".jpeg" then ".jpg"
    else ".gif"
  | none => ".gif"

/-- exportEmoji (lines 585-637): key is md5 or the local id, the extension is
guessed from the URL, an existing destination short-circuits, otherwise the
CDN download (oracle `download`, false on any failure) materializes the file. -/
def exportEmoji (download : String → Bool) (fsys : List String) (msg : EmojiMsg)
    (mediaDir : String) : MediaStep :=
  let emojisDir := pathJoin mediaDir (pathJoin "media" "emojis")
  if !truthyOpt msg.emojiCdnUrl && !truthyOpt msg.emojiMd5 then ⟨none, fsys, 0⟩
  else
    let key := jsOrStr msg.emojiMd5 (toString msg.localId)
    let fileName := key ++ emojiExt msg.emojiCdnUrl
    let destPath := pathJoin emojisDir fileName
    if fsys.contains destPath then
      ⟨some ⟨"media/emojis/" ++ fileName, "emoji"⟩, fsys, 0⟩
    else
      match msg.emojiCdnUrl with
      | some url =>
        if url = "" then ⟨none, fsys, 0⟩
        else if download url then
          ⟨some ⟨"media/emojis/" ++ fileName, "emoji"⟩, insertPath destPath fsys, 1⟩
        else ⟨none, fsys, 0⟩
      | none => ⟨none, fsys, 0⟩

/-- The field of a voice message the extractor reads. -/
structure VoiceMsg where
  localId : Nat

/-- exportVoice (lines 529-565): the destination is voice_{localId}.wav; an
existing file short-circuits, otherwise the voice bytes (oracle, none on a
failed fetch) are written. -/
def exportVoice (voiceData : Option String) (fsys : List String) (msg : VoiceMsg)
    (mediaDir : String) : MediaStep :=
  let voicesDir := pathJoin mediaDir (pathJoin "media" "voices")
  let fileName := "voice_" ++ toString msg.localId ++ ".wav"
  let destPath := pathJoin voicesDir fileName
  if fsys.contains destPath then
    ⟨some ⟨"media/voices/" ++ fileName, "voice"⟩, fsys, 0⟩
  else
    match voiceData with
    | none => ⟨none, fsys, 0⟩
    | some _ => ⟨some ⟨"media/voices/" ++ fileName, "voice"⟩, insertPath destPath fsys, 1⟩

/-- The fields of an image message the extractor reads. -/
structure ImageMsg where
  localId : Nat
  imageMd5 : Option String
  imageDatName : Option String

/-- path.extname with the || '.jpg' fallback of lines 506 and 930: the suffix
of the basename from its last dot, empty for a dotless or dot-leading name. -/
def extnameOrJpg (p : String) : String :=
  let base := (p.data.reverse.takeWhile (fun c => c != '/')).reverse
  let afterDot := base.reverse.takeWhile (fun c => c != '.')
  if afterDot.length == base.length then ".jpg"
  else if afterDot.length + 1 == base.length then ".jpg"
  else String.mk ('.' :: afterDot.reverse)

/-- fileURLToPath, reduced to dropping the scheme (the source only feeds it
file URLs produced by its own collaborators). -/
def stripFileUrl (p : String) : String := String.mk (p.data.drop 7)

/-- The filename key of lines 491 and 507: imageMd5 || imageDatName || localId. -/
def imageFileKey (msg : ImageMsg) : String :=
  jsOrStr msg.imageMd5 (jsOrStr msg.imageDatName (toString msg.localId))

/-- Lines 465-483: the localPath of the decrypt collaborator, or the
cached-thumbnail fallback (none models a failed or pathless result). -/
def localPathOf (decryptPath thumbPath : Option String) : Option String :=
  match decryptPath with
  | some p => some p
  | none => thumbPath

/-- s.startsWith(pre) on the character lists. -/
def strStartsWith (s pre : String) : Bool := List.isPrefixOf pre.data s.data

/-- Line 500-502: a file URL is converted, anything else is used as a path. -/
def sourcePathOf (p : String) : String :=
  if strStartsWith p "file://" then stripFileUrl p else p

/-- exportImage (lines 450-524). A data: URL result is written
unconditionally (lines 487-499); a file path is copied only when the
destination does not yet exist (lines 505-518). -/
def exportImage (decryptPath thumbPath : Option String) (fsys : List String)
    (msg : ImageMsg) (mediaDir : String) : MediaStep :=
  let imagesDir := pathJoin mediaDir (pathJoin "media" "images")
  if !truthyOpt msg.imageMd5 && !truthyOpt msg.imageDatName then ⟨none, fsys, 0⟩
  else
    match localPathOf decryptPath thumbPath with
    | none => ⟨none, fsys, 0⟩
    | some sourcePath0 =>
      if strStartsWith sourcePath0 "data:" then
        let ext := getExtFromDataUrl sourcePath0
        let fileName := imageFileKey msg ++ ext
        let destPath := pathJoin imagesDir fileName
        ⟨some ⟨"media/images/" ++ fileName, "image"⟩, insertPath destPath fsys, 1⟩
      else
        let sourcePath := sourcePathOf sourcePath0
        if fsys.contains sourcePath then
          let ext := extnameOrJpg sourcePath
          let fileName := imageFileKey msg ++ ext
          let destPath := pathJoin imagesDir fileName
          if !fsys.contains destPath then
            ⟨some ⟨"media/images/" ++ fileName, "image"⟩, insertPath destPath fsys, 1⟩
          else ⟨some ⟨"media/images/" ++ fileName, "image"⟩, fsys, 0⟩
        else ⟨none, fsys, 0⟩

/-- Whether an image run takes the data-URL branch: the md5/datName guard
passes and the resolved local path is a data URL. -/
def imageDataBranch (decryptPath thumbPath : Option String) (msg : ImageMsg) : Bool :=
  (truthyOpt msg.imageMd5 || truthyOpt msg.imageDatName) &&
    (match localPathOf decryptPath thumbPath with
     | some p => strStartsWith p "data:"
     | none => false)

theorem mem_insertPath_self (p : String) (fs : List String) : p ∈ insertPath p fs := by
  unfold insertPath
  split_ifs with h
  · simpa using h
  · exact List.mem_cons_self p fs

theorem truthyOpt_none : truthyOpt none = false := rfl

theorem truthyOpt_some (s : String) : truthyOpt (some s) = (s != "") := rfl

/-- A second emoji run over the filesystem the first run left behind returns
the same item, changes nothing, and performs no write. -/
theorem exportEmoji_second_run (download : String → Bool) (fsys : List String)
    (emsg : EmojiMsg) (dir : String) :
    exportEmoji download (exportEmoji download fsys emsg dir).fsys emsg dir =
      ⟨(exportEmoji download fsys emsg dir).item,
        (exportEmoji download fsys emsg dir).fsys, 0⟩ := by
  cases hurl : emsg.emojiCdnUrl with
  | none =>
    cases hmd : truthyOpt emsg.emojiMd5 with
    | false => simp [exportEmoji, hurl, hmd, truthyOpt_none]
    | true =>
      by_cases hc : pathJoin (pathJoin dir (pathJoin "media" "emojis"))
          (jsOrStr emsg.emojiMd5 (toString emsg.localId) ++ emojiExt none) ∈ fsys
      · simp [exportEmoji, hurl, hmd, truthyOpt_none, hc]
      · simp [exportEmoji, hurl, hmd, truthyOpt_none, hc]
  | some url =>
    by_cases hu : url = ""
    · subst hu
      cases hmd : truthyOpt emsg.emojiMd5 with
      | false => simp [exportEmoji, hurl, hmd, truthyOpt_some]
      | true =>
        by_cases hc : pathJoin (pathJoin dir (pathJoin "media" "emojis"))
            (jsOrStr emsg.emojiMd5 (toString emsg.localId) ++ emojiExt (some "")) ∈ fsys
        · simp [exportEmoji, hurl, hmd, truthyOpt_some, hc]
        · simp [exportEmoji, hurl, hmd, truthyOpt_some, hc]
    · by_cases hc : pathJoin (pathJoin dir (pathJoin "media" "emojis"))
          (jsOrStr emsg.emojiMd5 (toString emsg.localId) ++ emojiExt (some url)) ∈ fsys
      · simp [exportEmoji, hurl, truthyOpt_some, hu, hc]
      · by_cases hd : download url = true
        · simp [exportEmoji, hurl, truthyOpt_some, hu, hc, hd, mem_insertPath_self]
        · simp [exportEmoji, hurl, truthyOpt_some, hu, hc, hd]

theorem mem_insertPath_mono {q : String} {fs : List String} (p : String)
    (h : q ∈ fs) : q ∈ insertPath p fs := by
  unfold insertPath
  split_ifs
  · exact h
  · exact List.mem_cons_of_mem p h

theorem insertPath_idem (p : String) (fs : List String) :
    insertPath p (insertPath p fs) = insertPath p fs := by
  by_cases h1 : p ∈ fs
  · simp [insertPath, h1]
  · simp [insertPath, h1]

/-- A second voice run over the filesystem the first run left behind returns
the same item, changes nothing, and performs no write. -/
theorem exportVoice_second_run (voiceData : Option String) (fsys : List String)
    (vmsg : VoiceMsg) (dir : String) :
    exportVoice voiceData (exportVoice voiceData fsys vmsg dir).fsys vmsg dir =
      ⟨(exportVoice voiceData fsys vmsg dir).item,
        (exportVoice voiceData fsys vmsg dir).fsys, 0⟩ := by
  by_cases hc : pathJoin (pathJoin dir (pathJoin "media" "voices"))
      ("voice_" ++ toString vmsg.localId ++ ".wav") ∈ fsys
  · simp [exportVoice, hc]
  · cases hv : voiceData with
    | none => simp [exportVoice, hc, hv]
    | some d => simp [exportVoice, hc, hv, mem_insertPath_self]

/-- A second image run returns the same item over the same filesystem; it
performs no write except in the data-URL branch, which rewrites the existing
file. -/
theorem exportImage_second_run (decryptPath thumbPath : Option String)
    (fsys : List String) (imsg : ImageMsg) (dir : String) :
    exportImage decryptPath thumbPath
        (exportImage decryptPath thumbPath fsys imsg dir).fsys imsg dir =
      ⟨(exportImage decryptPath thumbPath fsys imsg dir).item,
        (exportImage decryptPath thumbPath fsys imsg dir).fsys,
        if imageDataBranch decryptPath thumbPath imsg then 1 else 0⟩ := by
  cases hg : (!truthyOpt imsg.imageMd5 && !truthyOpt imsg.imageDatName) with
  | true =>
    have hab : (truthyOpt imsg.imageMd5 || truthyOpt imsg.imageDatName) = false := by
      revert hg
      cases truthyOpt imsg.imageMd5 <;> cases truthyOpt imsg.imageDatName <;> simp
    simp [exportImage, imageDataBranch, hg, hab]
  | false =>
    have hab : (truthyOpt imsg.imageMd5 || truthyOpt imsg.imageDatName) = true := by
      revert hg
      cases truthyOpt imsg.imageMd5 <;> cases truthyOpt imsg.imageDatName <;> simp
    cases hlp : localPathOf decryptPath thumbPath with
    | none => simp [exportImage, imageDataBranch, hg, hab, hlp]
    | some p =>
      by_cases hdata : strStartsWith p "data:" = true
      · simp [exportImage, imageDataBranch, hg, hab, hlp, hdata, insertPath_idem]
      · by_cases hs : sourcePathOf p ∈ fsys
        · by_cases hdest : pathJoin (pathJoin dir (pathJoin "media" "images"))
              (imageFileKey imsg ++ extnameOrJpg (sourcePathOf p)) ∈ fsys
          · simp [exportImage, imageDataBranch, hg, hab, hlp, hdata, hs, hdest]
          · simp [exportImage, imageDataBranch, hg, hab, hlp, hdata, hs, hdest,
              mem_insertPath_self, mem_insertPath_mono]
        · simp [exportImage, imageDataBranch, hg, hab, hlp, hdata, hs]

/-- C3 counterexample: an image whose decrypt result is a data URL is written
again even though the destination out/media/images/m1.png already exists (the
data-URL branch of lines 487-499 has no existence check), so re-exporting
does re-materialize a file whose target path already exists. -/
theorem C3_counterexample :
    pathJoin (pathJoin "out" (pathJoin "media" "images")) "m1.png" ∈
      (["out/media/images/m1.png"] : List String) ∧
    (exportImage (some "data:image/png;base64,QUJD") none ["out/media/images/m1.png"]
        ⟨7, some "m1", none⟩ "out").writes = 1 ∧
    (exportImage (some "data:image/png;base64,QUJD") none ["out/media/images/m1.png"]
        ⟨7, some "m1", none⟩ "out").item =
      some ⟨"media/images/m1.png", "image"⟩ := by
  refine ⟨by decide, by decide, by decide⟩

/-- C3 amended: for emoji and voice media, and for images materialized by
file copy, a destination that already exists is never re-materialized and the
returned relativePath is identical on a repeated run; an image resolved to a
data URL is re-written on every run (one write, to the same path), though its
returned relativePath and the resulting filesystem are also unchanged. Hence
exporting the same conversation twice into the same output directory
re-materializes no already-existing file except data-URL images. -/
theorem C3_amended_idempotent_media (download : String → Bool)
    (voiceData decryptPath thumbPath : Option String) (fsys : List String)
    (emsg : EmojiMsg) (vmsg : VoiceMsg) (imsg : ImageMsg) (dir : String) :
    exportEmoji download (exportEmoji download fsys emsg dir).fsys emsg dir =
      ⟨(exportEmoji download fsys emsg dir).item,
        (exportEmoji download fsys emsg dir).fsys, 0⟩ ∧
    exportVoice voiceData (exportVoice voiceData fsys vmsg dir).fsys vmsg dir =
      ⟨(exportVoice voiceData fsys vmsg dir).item,
        (exportVoice voiceData fsys vmsg dir).fsys, 0⟩ ∧
    exportImage decryptPath thumbPath
        (exportImage decryptPath thumbPath fsys imsg dir).fsys imsg dir =
      ⟨(exportImage decryptPath thumbPath fsys imsg dir).item,
        (exportImage decryptPath thumbPath fsys imsg dir).fsys,
        if imageDataBranch decryptPath thumbPath imsg then 1 else 0⟩ :=
  ⟨exportEmoji_second_run download fsys emsg dir,
   exportVoice_second_run voiceData fsys vmsg dir,
   exportImage_second_run decryptPath thumbPath fsys imsg dir⟩

/-! ## Batch orchestrator (exportService.ts lines 1640-1713)

The per-conversation export outcome is an oracle `exportOne`; the connection
precondition of ensureConnected is a flag with its error message. -/

/-- The summary exportSessions returns. -/
structure BatchSummary where
  success : Bool
  successCount : Nat
  failCount : Nat
  error : Option String
deriving DecidableEq

/-- The counters and the attempt trace of the loop of lines 1659-1700: each
session id is attempted exactly once, in order, and the matching counter is
incremented. -/
def exportSessionsLoop (exportOne : String → Bool) : List String → Nat × Nat × List String
  | [] => (0, 0, [])
  | sid :: rest =>
    let r := exportSessionsLoop exportOne rest
    if exportOne sid then (r.1 + 1, r.2.1, sid :: r.2.2)
    else (r.1, r.2.1 + 1, sid :: r.2.2)

/-- exportSessions (lines 1640-1713): a failed connection precondition
reports zero successes and every session as failed without attempting any
export; otherwise the loop counts per-session outcomes. -/
def exportSessions (connOk : Bool) (connError : Option String)
    (exportOne : String → Bool) (sessionIds : List String) : BatchSummary :=
  if !connOk then ⟨false, 0, sessionIds.length, connError⟩
  else
    let r := exportSessionsLoop exportOne sessionIds
    ⟨true, r.1, r.2.1, none⟩

/-- The list of conversations attempted, in order. -/
def exportAttempts (connOk : Bool) (exportOne : String → Bool)
    (sessionIds : List String) : List String :=
  if !connOk then [] else (exportSessionsLoop exportOne sessionIds).2.2

theorem exportSessionsLoop_counts (exportOne : String → Bool) (ids : List String) :
    (exportSessionsLoop exportOne ids).1 = (ids.filter exportOne).length ∧
    (exportSessionsLoop exportOne ids).2.1 =
      (ids.filter (fun i => !exportOne i)).length ∧
    (exportSessionsLoop exportOne ids).2.2 = ids := by
  induction ids with
  | nil => exact ⟨rfl, rfl, rfl⟩
  | cons sid rest ih =>
    cases hs : exportOne sid with
    | true => simp [exportSessionsLoop, hs, ih.1, ih.2.1, ih.2.2]
    | false => simp [exportSessionsLoop, hs, ih.1, ih.2.1, ih.2.2]

theorem filter_length_add (p : String → Bool) (ids : List String) :
    (ids.filter p).length + (ids.filter (fun i => !p i)).length = ids.length := by
  induction ids with
  | nil => rfl
  | cons x rest ih =>
    cases hx : p x with
    | true =>
      simp [List.filter_cons, hx]
      omega
    | false =>
      simp [List.filter_cons, hx]
      omega

/-- C2: with the connection precondition satisfied, every conversation id is
attempted exactly once in order (no retry), a failure increments failCount
and the loop continues, the counters always sum to N, and exactly one failing
conversation yields successCount = N-1 and failCount = 1; a failed
precondition yields successCount = 0 and failCount = N with no attempt. -/
theorem C2_batch_accounting (exportOne : String → Bool) (err : Option String)
    (ids : List String) :
    (exportSessions true err exportOne ids).successCount +
        (exportSessions true err exportOne ids).failCount = ids.length ∧
    exportAttempts true exportOne ids = ids ∧
    (exportSessions true err exportOne ids).successCount = (ids.filter exportOne).length ∧
    (exportSessions true err exportOne ids).failCount =
      (ids.filter (fun i => !exportOne i)).length ∧
    ((ids.filter (fun i => !exportOne i)).length = 1 →
      (exportSessions true err exportOne ids).successCount = ids.length - 1 ∧
      (exportSessions true err exportOne ids).failCount = 1) ∧
    exportSessions false err exportOne ids = ⟨false, 0, ids.length, err⟩ ∧
    exportAttempts false exportOne ids = [] := by
  obtain ⟨hs, hf, ht⟩ := exportSessionsLoop_counts exportOne ids
  have hsum := filter_length_add exportOne ids
  refine ⟨?_, ?_, ?_, ?_, ?_, rfl, rfl⟩
  · simp [exportSessions, hs, hf, hsum]
  · simp [exportAttempts, ht]
  · simp [exportSessions, hs]
  · simp [exportSessions, hf]
  · intro h1
    constructor
    · simp only [exportSessions, Bool.not_true, Bool.false_eq_true, if_false]
      simp only [hs]
      omega
    · simp [exportSessions, hf, h1]

/-- Witness for C2 at three ids of which exactly the second fails: two
successes, one failure, all three attempted in order. -/
theorem C2_witness :
    ((["a", "b", "c"] : List String).filter (fun i => !(i != "b"))).length = 1 ∧
    (exportSessions true none (fun i => i != "b") ["a", "b", "c"]).successCount = 2 ∧
    (exportSessions true none (fun i => i != "b") ["a", "b", "c"]).failCount = 1 ∧
    exportAttempts true (fun i => i != "b") ["a", "b", "c"] = ["a", "b", "c"] := by
  have h := C2_batch_accounting (fun i => i != "b") none ["a", "b", "c"]
  refine ⟨by decide, ?_, (h.2.2.2.2.1 (by decide)).2, h.2.1⟩
  have h2 := (h.2.2.2.2.1 (by decide)).1
  simpa using h2

/-! ## Networked downloads (exportService.ts lines 710-745, 946-977)

The network is an oracle that answers one request per URL with an error, a
timeout, or a status plus optional Location header. downloadFile recurses on
every 301/302 with a Location and carries no redirect counter, so its
embedding needs fuel: one unit per issued request. `none` means the promise
has not settled within that many requests. -/

/-- The outcome of one HTTP request. -/
inductive NetResp where
  | err : NetResp
  | timeout : NetResp
  | resp : Nat → Option String → NetResp

/-- downloadFile (lines 710-745), fuelled by the number of requests issued:
an error or timeout resolves false, a 301/302 with a Location re-issues the
request on the new URL with no bound, any other non-200 status resolves
false, a 200 resolves with the write outcome. -/
def downloadFileFuel (net : String → NetResp) (write : String → Bool)
    (destPath : String) : Nat → String → Option Bool
  | 0, _ => none
  | fuel + 1, url =>
    match net url with
    | NetResp.err => some false
    | NetResp.timeout => some false
    | NetResp.resp status loc =>
      if status == 301 || status == 302 then
        match loc with
        | some redirectUrl => downloadFileFuel net write destPath fuel redirectUrl
        | none => if status != 200 then some false else some (write destPath)
      else if status != 200 then some false
      else some (write destPath)

/-- downloadToBuffer (lines 946-977): the remainingRedirects parameter
(default 2) bounds the recursion structurally; a 3xx with a Location and
remaining budget follows the redirect, any other non-2xx resolves null, and
a 2xx resolves with the body. -/
def downloadToBuffer (net : String → NetResp) : Nat → String → Option Unit
  | 0, url =>
    match net url with
    | NetResp.err => none
    | NetResp.timeout => none
    | NetResp.resp status _ => if status < 200 ∨ 300 ≤ status then none else some ()
  | rr + 1, url =>
    match net url with
    | NetResp.err => none
    | NetResp.timeout => none
    | NetResp.resp status loc =>
      match loc with
      | some redirectUrl =>
        if 300 ≤ status ∧ status < 400 then downloadToBuffer net rr redirectUrl
        else if status < 200 ∨ 300 ≤ status then none
        else some ()
      | none => if status < 200 ∨ 300 ≤ status then none else some ()

/-- A two-node redirect cycle: the emoji CDN answers 301 a -> b and
301 b -> a. -/
def cycNet : String → NetResp := fun u =>
  if u = "a" then NetResp.resp 301 (some "b")
  else if u = "b" then NetResp.resp 301 (some "a") else NetResp.resp 404 none

/-- C10: the claim says downloadFile follows at most a small fixed number of
redirects and terminates for every URL. The code has no redirect counter: on
the cyclic oracle it re-issues requests forever and its promise never
settles, shown here by the fuelled model returning `none` for every request
budget; downloadToBuffer, by contrast, carries remainingRedirects = 2 and
settles (with failure) on the same cycle, and downloadFile does resolve false
rather than throw on an error, a timeout, and a non-200 status. -/
theorem C10_downloadFile_unbounded_redirects (write : String → Bool) (destPath : String) :
    (∀ fuel : Nat, downloadFileFuel cycNet write destPath fuel "a" = none) ∧
    downloadToBuffer cycNet 2 "a" = none ∧
    (∀ fuel url, downloadFileFuel cycNet write destPath (fuel + 1) url = none →
      ∃ redirectUrl, downloadFileFuel cycNet write destPath fuel redirectUrl = none) ∧
    (∀ net : String → NetResp, ∀ url,
      net url = NetResp.err → downloadFileFuel net write destPath 1 url = some false) ∧
    (∀ net : String → NetResp, ∀ url,
      net url = NetResp.timeout → downloadFileFuel net write destPath 1 url = some false) ∧
    (∀ net : String → NetResp, ∀ url,
      net url = NetResp.resp 404 none → downloadFileFuel net write destPath 1 url = some false) := by
  have key : ∀ fuel : Nat, downloadFileFuel cycNet write destPath fuel "a" = none ∧
      downloadFileFuel cycNet write destPath fuel "b" = none := by
    intro fuel
    induction fuel with
    | zero => exact ⟨rfl, rfl⟩
    | succ n ih =>
      constructor
      · show downloadFileFuel cycNet write destPath (n + 1) "a" = none
        simp [downloadFileFuel, cycNet, ih.2]
      · show downloadFileFuel cycNet write destPath (n + 1) "b" = none
        simp [downloadFileFuel, cycNet, ih.1]
  refine ⟨fun fuel => (key fuel).1, rfl, ?_, ?_, ?_, ?_⟩
  · intro fuel url h
    by_cases ha : url = "a"
    · subst ha
      exact ⟨"b", (key fuel).2⟩
    · by_cases hb : url = "b"
      · subst hb
        exact ⟨"a", (key fuel).1⟩
      · exfalso
        simp [downloadFileFuel, cycNet, ha, hb] at h
  · intro net url h
    simp [downloadFileFuel, h]
  · intro net url h
    simp [downloadFileFuel, h]
  · intro net url h
    simp [downloadFileFuel, h]
